import Mathlib

/-!
Shallow embedding of `bulk_device_creation.py` (repository Deep1301/iot_issue).

The Python program has two components:

* `GenerateMacID` — generates random MAC-style identifiers
  (`generate_mac`) and collects a requested number of distinct ones in a
  set-driven loop (`generate_mac_addresses`).

* `DeviceHandler` — an asyncio orchestrator over the Azure IoT hub
  registry: `connect_hub`, `create_device` (idempotent per-device
  creation with local exception handling), `create_devices_from_list`
  (fan-out via `asyncio.gather` plus credential-file persistence),
  `create_device_credentials_file`, `connect_device` and
  `connect_all_devices`.

Python's `random.randint` is modelled by an explicit stream of naturals
`r : Nat → Nat` together with a cursor, reduced into the requested range
by modulus.  The unbounded `while` loop of `generate_mac_addresses` is
modelled with explicit fuel, `none` meaning "has not terminated within
the given number of iterations".

The external collaborators (registry manager, device client, file
system) are modelled as oracles: records of state-passing functions
returning `Except String · × σ`, where `.error` models a raised Python
exception.  Because none of the `create_device` tasks contains an inner
`await`, `asyncio.gather` over them executes the task bodies one after
the other in list order and returns their results in the same order;
the embedding of the fan-outs is therefore the sequential state-threaded
fold, with results matched to inputs by position exactly as the source
does.
-/

namespace BulkDeviceCreation

/-! ### Identifier generator (`GenerateMacID`) -/

/-- Python `random.randint(lo, hi)` (inclusive bounds) driven by the
random stream `r` at cursor `n`. -/
def randint (lo hi : Nat) (r : Nat → Nat) (n : Nat) : Nat :=
  lo + r n % (hi - lo + 1)

/-- Python `f'{x:02x}'`: lowercase hex, zero-padded to width 2. -/
def hex2 (x : Nat) : String :=
  let ds := Nat.toDigits 16 x
  String.mk (if ds.length < 2 then List.replicate (2 - ds.length) '0' ++ ds else ds)

/-- `GenerateMacID.generate_mac`: fixed vendor bytes `00:16:3e`, then a
7-bit random octet and two 8-bit random octets, rendered as two-digit
lowercase hex joined by `-`.  Consumes three stream values starting at
cursor `n`. -/
def generate_mac (r : Nat → Nat) (n : Nat) : String :=
  let mac := [0x00, 0x16, 0x3e,
              randint 0x00 0x7f r n,
              randint 0x00 0xff r (n + 1),
              randint 0x00 0xff r (n + 2)]
  String.intercalate "-" (mac.map hex2)

/-- One `mac_addresses.add(...)` step: a Python `set` of strings ignores
duplicates; order of the model list is insertion order. -/
def addMac (acc : List String) (m : String) : List String :=
  if m ∈ acc then acc else acc ++ [m]

/-- The `while len(mac_addresses) < self.num_of_ids` loop of
`generate_mac_addresses`, with explicit fuel bounding the number of
iterations; `n` is the random-stream cursor (three draws per
iteration). -/
def gmaAux (num_of_ids : Nat) (r : Nat → Nat) : Nat → List String → Nat → Option (List String)
  | 0, acc, _ => if acc.length < num_of_ids then none else some acc
  | fuel + 1, acc, n =>
    if acc.length < num_of_ids then
      gmaAux num_of_ids r fuel (addMac acc (generate_mac r n)) (n + 3)
    else some acc

/-- `GenerateMacID.generate_mac_addresses`: run the uniqueness loop from
the empty set; `some l` is the returned `list(mac_addresses)`. -/
def generate_mac_addresses (num_of_ids : Nat) (r : Nat → Nat) (fuel : Nat) : Option (List String) :=
  gmaAux num_of_ids r fuel [] 0

/-- The string produced for concrete octets `a b c` (the three random
octets) behind the fixed `00-16-3e` vendor bytes. -/
def macString (a b c : Nat) : String :=
  String.intercalate "-" ([0x00, 0x16, 0x3e, a, b, c].map hex2)

/-- The identifier format guaranteed by the generator: fixed vendor
bytes, first random octet masked to 7 bits, all octets two-digit
lowercase hex joined by hyphens (see `hex2`/`macString`). -/
def MacFormatted (s : String) : Prop :=
  ∃ a b c : Nat, a < 128 ∧ b < 256 ∧ c < 256 ∧ s = macString a b c

/-- Value of a lowercase hex digit character. -/
def hexDigitToNat (c : Char) : Nat :=
  if c ≤ '9' then c.toNat - 48 else c.toNat - 87

/-- Inverse of `hex2` on two-character strings. -/
def unhex2 (s : String) : Nat :=
  match s.data with
  | [c1, c2] => 16 * hexDigitToNat c1 + hexDigitToNat c2
  | _ => 0

/-- Every identifier `generate_mac` can produce. -/
def macSpace : Finset String :=
  ((Finset.range 128) ×ˢ ((Finset.range 256) ×ˢ (Finset.range 256))).image
    (fun p => macString p.1 p.2.1 p.2.2)

/-- A deterministic stream that enumerates all `2^23` octet triples:
iteration `k` (stream cursor `3*k`) yields the triple with index `k`. -/
def enumStream (n : Nat) : Nat :=
  let k := n / 3
  match n % 3 with
  | 0 => k / 65536
  | 1 => k / 256 % 256
  | _ => k % 256

/-- The identifier produced at iteration `k` under `enumStream`. -/
def macOfIdx (k : Nat) : String :=
  generate_mac enumStream (3 * k)

/-- The first `j` identifiers produced under `enumStream`. -/
def macList (j : Nat) : List String :=
  (List.range j).map macOfIdx

end BulkDeviceCreation


namespace BulkDeviceCreation

/-! ### Data model of the orchestrator (`DeviceHandler`) -/

/-- The part of an Azure device object the program reads:
`device_info.authentication.symmetric_key.primary_key`. -/
structure Device where
  primary_key : String
deriving DecidableEq, Repr

/-- The per-device credential dictionary built by `create_device`. -/
structure DeviceCredential where
  hostname : String
  device_id : String
  shared_access_key : String
deriving DecidableEq, Repr

/-- Oracle for the external collaborators used by `DeviceHandler`
(registry manager and credential-file write).  Each operation is a
state-passing function whose `.error` result models a raised Python
exception; the state `σ` models the registry plus any transient
environment, so faults may differ between calls. -/
structure Hub (σ : Type) where
  get_device : σ → String → Except String Device × σ
  create_device_with_sas : σ → String → Except String Device × σ
  write_file : σ → String → Except String Unit × σ

/-- The final `try` block of `create_device`: re-fetch the device and
extract its primary symmetric key; any exception yields `{}`. -/
def fetchCredential {σ : Type} (H : Hub σ) (hostname : String) (s : σ) (device_id : String) :
    Except String (Option DeviceCredential) × σ :=
  match H.get_device s device_id with
  | (.ok device_info, s1) =>
    (.ok (some ⟨hostname, device_id, device_info.primary_key⟩), s1)
  | (.error _, s1) => (.ok none, s1)

/-- `DeviceHandler.create_device`: look the device up; on failure try to
create it (returning `{}` if creation also fails); then re-fetch the
device to build the credential dictionary.  The outer `Except` is the
exception the method itself would propagate to its caller. -/
def create_device {σ : Type} (H : Hub σ) (hostname : String) (s : σ) (device_id : String) :
    Except String (Option DeviceCredential) × σ :=
  match H.get_device s device_id with
  | (.ok _, s1) => fetchCredential H hostname s1 device_id
  | (.error _, s1) =>
    match H.create_device_with_sas s1 device_id with
    | (.ok _, s2) => fetchCredential H hostname s2 device_id
    | (.error _, s2) => (.ok none, s2)

/-- `asyncio.gather` over the `create_device` tasks.  None of the task
bodies contains an inner `await`, so the cooperative scheduler runs each
body to completion in task order; `gather` returns the results in the
order the tasks were created, and would propagate the first exception a
task raised. -/
def gatherCreate {σ : Type} (H : Hub σ) (hostname : String) :
    σ → List String → Except String (List (Option DeviceCredential)) × σ
  | s, [] => (.ok [], s)
  | s, device_id :: rest =>
    match create_device H hostname s device_id with
    | (.error e, s1) => (.error e, s1)
    | (.ok res, s1) =>
      match gatherCreate H hostname s1 rest with
      | (.error e, s2) => (.error e, s2)
      | (.ok others, s2) => (.ok (res :: others), s2)

/-- Python `dict` insertion `d[k] = v`: replace in place if the key
exists, else append. -/
def dictInsert (d : List (String × DeviceCredential)) (k : String) (v : DeviceCredential) :
    List (String × DeviceCredential) :=
  if d.any (fun p => p.1 = k) then d.map (fun p => if p.1 = k then (k, v) else p)
  else d ++ [(k, v)]

/-- The `for i, credentials in enumerate(credentials_list)` loop of
`create_devices_from_list`: keep only non-empty results, keyed by the
identifier at the same position. -/
def assembleGo (d : List (String × DeviceCredential)) :
    List (String × Option DeviceCredential) → List (String × DeviceCredential)
  | [] => d
  | (device_id, res) :: rest =>
    assembleGo (match res with | none => d | some c => dictInsert d device_id c) rest

/-- Build `all_credentials` from the id list and the gathered results
(`device_ids` and `credentials_list` always have equal length). -/
def assembleStore (device_ids : List String)
    (credentials_list : List (Option DeviceCredential)) : List (String × DeviceCredential) :=
  assembleGo [] (device_ids.zip credentials_list)

/-- Minimal JSON string escaping used by `json.dump`. -/
def jsonEscape (s : String) : String :=
  String.mk (s.data.foldr
    (fun c acc =>
      if c = '\\' then '\\' :: '\\' :: acc
      else if c = '"' then '\\' :: '"' :: acc
      else c :: acc) [])

/-- One credential dictionary rendered by `json.dump(..., indent=4)`. -/
def renderCred (c : DeviceCredential) : String :=
  "\x7b\n        \"hostname\": \"" ++ jsonEscape c.hostname ++
  "\",\n        \"device_id\": \"" ++ jsonEscape c.device_id ++
  "\",\n        \"shared_access_key\": \"" ++ jsonEscape c.shared_access_key ++
  "\"\n    \x7d"

/-- `json.dump(credentials, f, indent=4)` for the whole store. -/
def serializeStore (store : List (String × DeviceCredential)) : String :=
  match store with
  | [] => "\x7b\x7d"
  | _ =>
    "\x7b\n" ++
    String.intercalate ",\n"
      (store.map (fun p => "    \"" ++ jsonEscape p.1 ++ "\": " ++ renderCred p.2)) ++
    "\n\x7d"

/-- `DeviceHandler.create_device_credentials_file`: overwrite the fixed
credential file with the serialized store; any exception is caught and
logged. -/
def create_device_credentials_file {σ : Type} (H : Hub σ) (s : σ)
    (credentials : List (String × DeviceCredential)) : Except String Unit × σ :=
  match H.write_file s (serializeStore credentials) with
  | (.ok _, s1) => (.ok (), s1)
  | (.error _, s1) => (.ok (), s1)

/-- `DeviceHandler.create_devices_from_list`: fan out one
`create_device` task per identifier, gather, assemble the store, always
persist it, and return it.  The method has no `try` of its own, so an
exception escaping `gather` or the persistence call would propagate. -/
def create_devices_from_list {σ : Type} (H : Hub σ) (hostname : String) (s : σ)
    (device_ids : List String) : Except String (List (String × DeviceCredential)) × σ :=
  match gatherCreate H hostname s device_ids with
  | (.error e, s1) => (.error e, s1)
  | (.ok credentials_list, s1) =>
    let all_credentials := assembleStore device_ids credentials_list
    match create_device_credentials_file H s1 all_credentials with
    | (.error e, s2) => (.error e, s2)
    | (.ok _, s2) => (.ok all_credentials, s2)

/-! ### A concrete registry world for the functional claims -/

/-- Concrete world: an association list of registered devices
(identifier to primary key, most recent first), a counter for the
service-side generated keys, and the credential-file content. -/
structure HubState where
  devices : List (String × String)
  fresh : Nat
  file : Option String
deriving DecidableEq, Repr

/-- The service-side generated primary key with index `n`. -/
def freshKey (n : Nat) : String :=
  "generated-key-" ++ toString n

/-- Registry lookup. -/
def lookupDev (l : List (String × String)) (device_id : String) : Option String :=
  (l.find? (fun p => p.1 = device_id)).map (fun p => p.2)

/-- A faithful registry world in which creation faults exactly on the
identifiers selected by `isBad` (modelling a per-device creation
failure), lookups report `DeviceNotFound` for absent devices, creation
rejects duplicates, and the file write succeeds. -/
def testHub (isBad : String → Bool) : Hub HubState where
  get_device := fun s device_id =>
    match lookupDev s.devices device_id with
    | some k => (.ok ⟨k⟩, s)
    | none => (.error "DeviceNotFound", s)
  create_device_with_sas := fun s device_id =>
    if isBad device_id then (.error "creation failed", s)
    else
      match lookupDev s.devices device_id with
      | some _ => (.error "DeviceAlreadyExists", s)
      | none =>
        (.ok ⟨freshKey s.fresh⟩,
          ⟨(device_id, freshKey s.fresh) :: s.devices, s.fresh + 1, s.file⟩)
  write_file := fun s text => (.ok (), ⟨s.devices, s.fresh, some text⟩)

/-- The fault-free registry world. -/
def honestHub : Hub HubState := testHub (fun _ => false)

/-- A registry world in which every external call throws. -/
def failHub : Hub Unit where
  get_device := fun s _ => (.error "network error", s)
  create_device_with_sas := fun s _ => (.error "network error", s)
  write_file := fun s _ => (.error "disk error", s)

/-- The store `create_devices_from_list` builds over `testHub isBad`
when started from a counter value `n` on identifiers not yet registered:
each non-faulted identifier is keyed to a credential holding the
service-generated key assigned in task order. -/
def expectedStore (hostname : String) (isBad : String → Bool) (n : Nat) :
    List String → List (String × DeviceCredential)
  | [] => []
  | device_id :: rest =>
    if isBad device_id then expectedStore hostname isBad n rest
    else (device_id, ⟨hostname, device_id, freshKey n⟩) :: expectedStore hostname isBad (n + 1) rest

/-- The gathered per-task results in the same scenario, by position. -/
def expectedResults (hostname : String) (isBad : String → Bool) (n : Nat) :
    List String → List (Option DeviceCredential)
  | [] => []
  | device_id :: rest =>
    if isBad device_id then none :: expectedResults hostname isBad n rest
    else some ⟨hostname, device_id, freshKey n⟩ :: expectedResults hostname isBad (n + 1) rest

/-! ### Registry connection and device connectivity check -/

/-- Oracle for `IoTHubRegistryManager.from_connection_string`. -/
structure HubFactory (σ : Type) where
  from_connection_string : σ → String → Except String Unit × σ

/-- `DeviceHandler.connect_hub`: build the connection string, create the
registry manager, log; any exception is caught and logged.  The returned
`Bool` records whether `self.device_client` was assigned. -/
def connect_hub {σ : Type} (F : HubFactory σ) (s : σ)
    (hostname shared_access_key_name shared_access_key : String) :
    Except String Unit × σ × Bool :=
  let device_connection_string :=
    "HostName=" ++ hostname ++ ";SharedAccessKeyName=" ++ shared_access_key_name ++
    ";SharedAccessKey=" ++ shared_access_key
  match F.from_connection_string s device_connection_string with
  | (.ok _, s1) => (.ok (), s1, true)
  | (.error _, s1) => (.ok (), s1, false)

/-- Oracle for the `IoTHubDeviceClient` used by `connect_device`. -/
structure DevClient (σ : Type) where
  create_from_connection_string : σ → String → Except String Unit × σ
  dev_connect : σ → Except String Unit × σ
  dev_disconnect : σ → Except String Unit × σ

/-- Observable steps of one `connect_device` call.  `created`,
`connected` and `loggedSuccess` record completed steps; `closed` records
that `disconnect()` was invoked (whether or not it itself then threw). -/
inductive DevEvent
  | created (connection_string : String)
  | connected
  | loggedSuccess (device_id : String)
  | closed
deriving DecidableEq, Repr

/-- The device-scope connection string built by `connect_device`. -/
def connString (device_credential : DeviceCredential) : String :=
  "HostName=" ++ device_credential.hostname ++
  ";DeviceId=" ++ device_credential.device_id ++
  ";SharedAccessKey=" ++ device_credential.shared_access_key

/-- `DeviceHandler.connect_device`: build a device client from the
credential, connect, log success, disconnect; any exception anywhere in
the `try` body is caught and logged. -/
def connect_device {σ : Type} (D : DevClient σ) (s : σ)
    (device_credential : DeviceCredential) : Except String Unit × σ × List DevEvent :=
  let cs := connString device_credential
  match D.create_from_connection_string s cs with
  | (.error _, s1) => (.ok (), s1, [])
  | (.ok _, s1) =>
    match D.dev_connect s1 with
    | (.error _, s2) => (.ok (), s2, [.created cs])
    | (.ok _, s2) =>
      match D.dev_disconnect s2 with
      | (_, s3) =>
        (.ok (), s3,
          [.created cs, .connected, .loggedSuccess device_credential.device_id, .closed])

/-- `DeviceHandler.connect_all_devices`: `asyncio.gather` over one
`connect_device` task per stored credential (dictionary iteration is
insertion order); returns the per-task event traces in task order. -/
def connect_all_devices {σ : Type} (D : DevClient σ) :
    σ → List (String × DeviceCredential) → Except String Unit × σ × List (List DevEvent)
  | s, [] => (.ok (), s, [])
  | s, (_, credentials) :: rest =>
    match connect_device D s credentials with
    | (.error e, s1, tr) => (.error e, s1, [tr])
    | (.ok _, s1, tr) =>
      match connect_all_devices D s1 rest with
      | (r2, s2, trs) => (r2, s2, tr :: trs)

end BulkDeviceCreation


namespace BulkDeviceCreation

/-! ### First sanity lemmas for the generator -/

set_option maxRecDepth 4096

theorem hex2_length : ∀ x, x < 256 → (hex2 x).length = 2 := by decide

theorem unhex2_hex2 : ∀ x, x < 256 → unhex2 (hex2 x) = x := by decide

theorem hex2_injOn {x y : Nat} (hx : x < 256) (hy : y < 256) (h : hex2 x = hex2 y) : x = y := by
  have hx' := unhex2_hex2 x hx
  have hy' := unhex2_hex2 y hy
  rw [h] at hx'
  omega

theorem macString_eq (a b c : Nat) :
    macString a b c = "00-16-3e-" ++ hex2 a ++ "-" ++ hex2 b ++ "-" ++ hex2 c := by
  simp [macString, String.intercalate, String.intercalate.go]
  have h0 : hex2 0 = "00" := by decide
  have h22 : hex2 22 = "16" := by decide
  have h62 : hex2 62 = "3e" := by decide
  rw [h0, h22, h62]
  apply String.ext
  simp

theorem hex2_data_length {x : Nat} (hx : x < 256) : (hex2 x).data.length = 2 :=
  hex2_length x hx

theorem macString_inj {a b c a' b' c' : Nat}
    (ha : a < 256) (hb : b < 256) (hc : c < 256)
    (ha' : a' < 256) (hb' : b' < 256) (hc' : c' < 256)
    (h : macString a b c = macString a' b' c') : a = a' ∧ b = b' ∧ c = c' := by
  rw [macString_eq, macString_eq] at h
  have hd := congrArg String.data h
  simp only [String.data_append, List.append_assoc] at hd
  have h1 := (List.append_inj hd rfl).2
  have h2 := List.append_inj h1 (by rw [hex2_data_length ha, hex2_data_length ha'])
  have h3 := (List.append_inj h2.2 rfl).2
  have h4 := List.append_inj h3 (by rw [hex2_data_length hb, hex2_data_length hb'])
  have h5 := (List.append_inj h4.2 rfl).2
  refine ⟨hex2_injOn ha ha' (String.ext h2.1), hex2_injOn hb hb' (String.ext h4.1),
    hex2_injOn hc hc' (String.ext h5)⟩

theorem macSpace_card : macSpace.card = 2 ^ 23 := by
  rw [macSpace, Finset.card_image_of_injOn]
  · rw [Finset.card_product, Finset.card_product, Finset.card_range, Finset.card_range]
    norm_num
  · rintro ⟨a, b, c⟩ hp ⟨a', b', c'⟩ hq h
    simp only [Finset.coe_product, Set.mem_prod, Finset.mem_coe, Finset.mem_range] at hp hq
    obtain ⟨h1, h2, h3⟩ := macString_inj (by omega) hp.2.1 hp.2.2
      (by omega) hq.2.1 hq.2.2 h
    simp_all

theorem generate_mac_eq (r : Nat → Nat) (n : Nat) :
    generate_mac r n = macString (r n % 128) (r (n + 1) % 256) (r (n + 2) % 256) := by
  simp [generate_mac, macString, randint]

theorem generate_mac_mem_macSpace (r : Nat → Nat) (n : Nat) :
    generate_mac r n ∈ macSpace := by
  rw [generate_mac_eq, macSpace]
  apply Finset.mem_image.2
  refine ⟨⟨r n % 128, r (n + 1) % 256, r (n + 2) % 256⟩, ?_, rfl⟩
  simp [Finset.mem_product]
  omega

theorem generate_mac_formatted (r : Nat → Nat) (n : Nat) :
    MacFormatted (generate_mac r n) :=
  ⟨r n % 128, r (n + 1) % 256, r (n + 2) % 256,
    Nat.mod_lt _ (by omega), Nat.mod_lt _ (by omega), Nat.mod_lt _ (by omega),
    generate_mac_eq r n⟩

/-! ### The uniqueness loop -/

theorem addMac_nodup {acc : List String} {m : String} (h : acc.Nodup) :
    (addMac acc m).Nodup := by
  unfold addMac
  split
  · exact h
  · next hm => simp [List.nodup_append, h, hm]

theorem addMac_mem {acc : List String} {m s : String} (h : s ∈ addMac acc m) :
    s ∈ acc ∨ s = m := by
  unfold addMac at h
  split at h
  · exact Or.inl h
  · simpa using h

theorem addMac_length_le {acc : List String} {m : String} :
    (addMac acc m).length ≤ acc.length + 1 := by
  unfold addMac
  split <;> simp

/-- Loop invariant: starting from a duplicate-free list of well-formed
identifiers no longer than the target, a successful run of the loop
returns exactly `num_of_ids` distinct well-formed identifiers. -/
theorem gmaAux_spec (num : Nat) (r : Nat → Nat) :
    ∀ fuel acc n l, acc.Nodup → (∀ s ∈ acc, MacFormatted s) → acc.length ≤ num →
      gmaAux num r fuel acc n = some l →
      l.length = num ∧ l.Nodup ∧ ∀ s ∈ l, MacFormatted s := by
  intro fuel
  induction fuel with
  | zero =>
    intro acc n l hnd hfmt hlen hrun
    unfold gmaAux at hrun
    split at hrun
    · exact absurd hrun (by simp)
    · next hge =>
      obtain rfl : acc = l := by simpa using hrun
      exact ⟨by omega, hnd, hfmt⟩
  | succ fuel ih =>
    intro acc n l hnd hfmt hlen hrun
    unfold gmaAux at hrun
    split at hrun
    · next hlt =>
      refine ih (addMac acc (generate_mac r n)) (n + 3) l (addMac_nodup hnd) ?_ ?_ hrun
      · intro s hs
        rcases addMac_mem hs with h | h
        · exact hfmt s h
        · exact h ▸ generate_mac_formatted r n
      · calc (addMac acc (generate_mac r n)).length ≤ acc.length + 1 := addMac_length_le
          _ ≤ num := by omega
    · next hge =>
      obtain rfl : acc = l := by simpa using hrun
      exact ⟨by omega, hnd, hfmt⟩

theorem generate_mac_addresses_zero (r : Nat → Nat) :
    generate_mac_addresses 0 r 0 = some [] := by
  simp [generate_mac_addresses, gmaAux]

/-! ### The identifier space and termination of the loop -/

theorem list_length_le_macSpace_card {acc : List String}
    (hnd : acc.Nodup) (hmem : ∀ s ∈ acc, s ∈ macSpace) : acc.length ≤ 2 ^ 23 := by
  have hsub : acc.toFinset ⊆ macSpace := by
    intro s hs
    exact hmem s (List.mem_toFinset.1 hs)
  have := Finset.card_le_card hsub
  rw [List.toFinset_card_of_nodup hnd, macSpace_card] at this
  exact this

/-- With more than `2^23` identifiers requested, the loop can never
terminate: the accumulated set stays inside the `2^23`-element
identifier space, so its size never reaches the target. -/
theorem gmaAux_none_of_large {num : Nat} (hnum : 2 ^ 23 < num) :
    ∀ fuel (r : Nat → Nat) n acc, acc.Nodup → (∀ s ∈ acc, s ∈ macSpace) →
      gmaAux num r fuel acc n = none := by
  intro fuel
  induction fuel with
  | zero =>
    intro r n acc hnd hmem
    have := list_length_le_macSpace_card hnd hmem
    unfold gmaAux
    rw [if_pos (by omega)]
  | succ fuel ih =>
    intro r n acc hnd hmem
    have := list_length_le_macSpace_card hnd hmem
    unfold gmaAux
    rw [if_pos (by omega)]
    refine ih r (n + 3) _ (addMac_nodup hnd) ?_
    intro s hs
    rcases addMac_mem hs with h | h
    · exact hmem s h
    · exact h ▸ generate_mac_mem_macSpace r n

theorem enumStream_at_0 (k : Nat) : enumStream (3 * k) = k / 65536 := by
  have h1 : 3 * k % 3 = 0 := by omega
  have h2 : 3 * k / 3 = k := by omega
  simp [enumStream, h1, h2]

theorem enumStream_at_1 (k : Nat) : enumStream (3 * k + 1) = k / 256 % 256 := by
  have h1 : (3 * k + 1) % 3 = 1 := by omega
  have h2 : (3 * k + 1) / 3 = k := by omega
  simp [enumStream, h1, h2]

theorem enumStream_at_2 (k : Nat) : enumStream (3 * k + 2) = k % 256 := by
  have h1 : (3 * k + 2) % 3 = 2 := by omega
  have h2 : (3 * k + 2) / 3 = k := by omega
  simp [enumStream, h1, h2]

theorem macOfIdx_eq {k : Nat} (hk : k < 2 ^ 23) :
    macOfIdx k = macString (k / 65536) (k / 256 % 256) (k % 256) := by
  rw [macOfIdx, generate_mac_eq, enumStream_at_0 k, enumStream_at_1 k, enumStream_at_2 k]
  have e1 : k / 65536 % 128 = k / 65536 := Nat.mod_eq_of_lt (by omega)
  have e2 : k / 256 % 256 % 256 = k / 256 % 256 := Nat.mod_eq_of_lt (by omega)
  have e3 : k % 256 % 256 = k % 256 := Nat.mod_eq_of_lt (by omega)
  rw [e1, e2, e3]

theorem macOfIdx_inj {k1 k2 : Nat} (h1 : k1 < 2 ^ 23) (h2 : k2 < 2 ^ 23)
    (h : macOfIdx k1 = macOfIdx k2) : k1 = k2 := by
  rw [macOfIdx_eq h1, macOfIdx_eq h2] at h
  obtain ⟨e1, e2, e3⟩ := macString_inj (by omega) (by omega) (by omega)
    (by omega) (by omega) (by omega) h
  omega

theorem macList_length (j : Nat) : (macList j).length = j := by
  simp [macList]

theorem macOfIdx_not_mem_macList {j : Nat} (hj : j < 2 ^ 23) :
    macOfIdx j ∉ macList j := by
  intro hmem
  rw [macList, List.mem_map] at hmem
  obtain ⟨k, hk, hkeq⟩ := hmem
  rw [List.mem_range] at hk
  have := macOfIdx_inj (by omega) hj hkeq
  omega

theorem macList_succ (j : Nat) : macList (j + 1) = macList j ++ [macOfIdx j] := by
  simp [macList, List.range_succ]

/-- Under the enumerating stream the loop makes one fresh identifier per
iteration, so `num` iterations of fuel suffice whenever `num ≤ 2^23`. -/
theorem gmaAux_enum {num : Nat} (hnum : num ≤ 2 ^ 23) :
    ∀ f j, j + f = num → gmaAux num enumStream f (macList j) (3 * j) = some (macList num) := by
  intro f
  induction f with
  | zero =>
    intro j hj
    obtain rfl : j = num := by omega
    unfold gmaAux
    rw [if_neg (by rw [macList_length]; omega)]
  | succ f ih =>
    intro j hj
    unfold gmaAux
    rw [if_pos (by rw [macList_length]; omega)]
    have hstep : addMac (macList j) (generate_mac enumStream (3 * j)) = macList (j + 1) := by
      have hnm : generate_mac enumStream (3 * j) ∉ macList j :=
        @macOfIdx_not_mem_macList j (by omega)
      rw [macList_succ, addMac, if_neg hnm]
      rfl
    rw [hstep, show 3 * j + 3 = 3 * (j + 1) by omega]
    exact ih (j + 1) (by omega)

theorem generate_mac_addresses_enum {num : Nat} (hnum : num ≤ 2 ^ 23) :
    generate_mac_addresses num enumStream num = some (macList num) := by
  have h := gmaAux_enum hnum num 0 (by omega)
  simpa [generate_mac_addresses, macList] using h

/-! ### Exception-isolation lemmas: no operation propagates -/

theorem fetchCredential_ok {σ : Type} (H : Hub σ) (hostname : String) (s : σ)
    (device_id : String) :
    ∃ r s', fetchCredential H hostname s device_id = (.ok r, s') ∧
      (r = none ∨ ∃ key, r = some ⟨hostname, device_id, key⟩) := by
  rcases hg : H.get_device s device_id with ⟨e | d, s1⟩
  · exact ⟨none, s1, by simp [fetchCredential, hg], Or.inl rfl⟩
  · exact ⟨some ⟨hostname, device_id, d.primary_key⟩, s1,
      by simp [fetchCredential, hg], Or.inr ⟨d.primary_key, rfl⟩⟩

theorem create_device_ok {σ : Type} (H : Hub σ) (hostname : String) (s : σ)
    (device_id : String) :
    ∃ r s', create_device H hostname s device_id = (.ok r, s') ∧
      (r = none ∨ ∃ key, r = some ⟨hostname, device_id, key⟩) := by
  rcases hg : H.get_device s device_id with ⟨e | d, s1⟩
  · rcases hc : H.create_device_with_sas s1 device_id with ⟨e2 | d2, s2⟩
    · exact ⟨none, s2, by simp [create_device, hg, hc], Or.inl rfl⟩
    · obtain ⟨r, s', h, hr⟩ := fetchCredential_ok H hostname s2 device_id
      exact ⟨r, s', by simp [create_device, hg, hc, h], hr⟩
  · obtain ⟨r, s', h, hr⟩ := fetchCredential_ok H hostname s1 device_id
    exact ⟨r, s', by simp [create_device, hg, h], hr⟩

theorem gatherCreate_ok {σ : Type} (H : Hub σ) (hostname : String) :
    ∀ (device_ids : List String) (s : σ),
      ∃ results s', gatherCreate H hostname s device_ids = (.ok results, s') ∧
        results.length = device_ids.length := by
  intro device_ids
  induction device_ids with
  | nil => exact fun s => ⟨[], s, rfl, rfl⟩
  | cons device_id rest ih =>
    intro s
    obtain ⟨r, s1, h1, _⟩ := create_device_ok H hostname s device_id
    obtain ⟨others, s2, h2, hlen⟩ := ih s1
    exact ⟨r :: others, s2, by simp [gatherCreate, h1, h2], by simpa using hlen⟩

theorem create_device_credentials_file_ok {σ : Type} (H : Hub σ) (s : σ)
    (credentials : List (String × DeviceCredential)) :
    ∃ s', create_device_credentials_file H s credentials = (.ok (), s') := by
  rcases hw : H.write_file s (serializeStore credentials) with ⟨e | u, s1⟩
  · exact ⟨s1, by simp [create_device_credentials_file, hw]⟩
  · exact ⟨s1, by simp [create_device_credentials_file, hw]⟩

theorem create_devices_from_list_ok {σ : Type} (H : Hub σ) (hostname : String) (s : σ)
    (device_ids : List String) :
    ∃ store s', create_devices_from_list H hostname s device_ids = (.ok store, s') := by
  obtain ⟨results, s1, h1, _⟩ := gatherCreate_ok H hostname device_ids s
  obtain ⟨s2, h2⟩ := create_device_credentials_file_ok H s1 (assembleStore device_ids results)
  exact ⟨assembleStore device_ids results, s2, by simp [create_devices_from_list, h1, h2]⟩

theorem connect_hub_ok {σ : Type} (F : HubFactory σ) (s : σ)
    (hostname shared_access_key_name shared_access_key : String) :
    ∃ s' b, connect_hub F s hostname shared_access_key_name shared_access_key =
      (.ok (), s', b) := by
  rcases hf : F.from_connection_string s
      ("HostName=" ++ hostname ++ ";SharedAccessKeyName=" ++ shared_access_key_name ++
        ";SharedAccessKey=" ++ shared_access_key) with ⟨e | u, s1⟩
  · exact ⟨s1, false, by simp [connect_hub, hf]⟩
  · exact ⟨s1, true, by simp [connect_hub, hf]⟩

theorem connect_device_cases {σ : Type} (D : DevClient σ) (s : σ)
    (device_credential : DeviceCredential) :
    ∃ s' tr, connect_device D s device_credential = (.ok (), s', tr) ∧
      (tr = [] ∨ tr = [.created (connString device_credential)] ∨
       tr = [.created (connString device_credential), .connected,
             .loggedSuccess device_credential.device_id, .closed]) := by
  rcases h1 : D.create_from_connection_string s (connString device_credential) with ⟨e | u, s1⟩
  · exact ⟨s1, [], by simp [connect_device, h1], Or.inl rfl⟩
  · rcases h2 : D.dev_connect s1 with ⟨e | u2, s2⟩
    · exact ⟨s2, [.created (connString device_credential)],
        by simp [connect_device, h1, h2], Or.inr (Or.inl rfl)⟩
    · rcases h3 : D.dev_disconnect s2 with ⟨r3, s3⟩
      exact ⟨s3, [.created (connString device_credential), .connected,
          .loggedSuccess device_credential.device_id, .closed],
        by simp [connect_device, h1, h2, h3], Or.inr (Or.inr rfl)⟩

theorem connect_all_devices_ok {σ : Type} (D : DevClient σ) :
    ∀ (all_credentials : List (String × DeviceCredential)) (s : σ),
      ∃ s' traces, connect_all_devices D s all_credentials = (.ok (), s', traces) ∧
        traces.length = all_credentials.length := by
  intro all_credentials
  induction all_credentials with
  | nil => exact fun s => ⟨s, [], rfl, rfl⟩
  | cons p rest ih =>
    intro s
    obtain ⟨name, cred⟩ := p
    obtain ⟨s1, tr, h1, _⟩ := connect_device_cases D s cred
    obtain ⟨s2, trs, h2, hlen⟩ := ih s1
    exact ⟨s2, tr :: trs, by simp [connect_all_devices, h1, h2], by simpa using hlen⟩

/-! ### Behaviour of `create_device` over the concrete registry world -/

theorem lookupDev_cons_self (device_id k : String) (l : List (String × String)) :
    lookupDev ((device_id, k) :: l) device_id = some k := by
  simp [lookupDev]

theorem lookupDev_cons_ne {device_id other : String} (h : other ≠ device_id)
    (k : String) (l : List (String × String)) :
    lookupDev ((other, k) :: l) device_id = lookupDev l device_id := by
  simp [lookupDev, List.find?_cons, h]

/-- Idempotent path: the device already exists, so `create_device` skips
creation, re-fetches, and returns the key currently stored in the
registry without touching registry state. -/
theorem create_device_exists (isBad : String → Bool) (hostname : String) {s : HubState}
    {device_id k : String} (h : lookupDev s.devices device_id = some k) :
    create_device (testHub isBad) hostname s device_id =
      (.ok (some ⟨hostname, device_id, k⟩), s) := by
  simp [create_device, fetchCredential, testHub, h]

/-- Fresh path: the device is absent and creation succeeds; the registry
gains one entry holding the service-generated key, which the re-fetch
then returns. -/
theorem create_device_fresh (isBad : String → Bool) (hostname : String) {s : HubState}
    {device_id : String} (h : lookupDev s.devices device_id = none)
    (hb : isBad device_id = false) :
    create_device (testHub isBad) hostname s device_id =
      (.ok (some ⟨hostname, device_id, freshKey s.fresh⟩),
        ⟨(device_id, freshKey s.fresh) :: s.devices, s.fresh + 1, s.file⟩) := by
  simp [create_device, fetchCredential, testHub, h, hb, lookupDev_cons_self]

/-- Faulted path: the device is absent and creation throws; the
exception is caught and the task's result is the empty dictionary. -/
theorem create_device_bad (isBad : String → Bool) (hostname : String) {s : HubState}
    {device_id : String} (h : lookupDev s.devices device_id = none)
    (hb : isBad device_id = true) :
    create_device (testHub isBad) hostname s device_id = (.ok none, s) := by
  simp [create_device, testHub, h, hb]

/-- Fan-out over fresh, pairwise-distinct identifiers: the gathered
results are exactly `expectedResults`, matched to the identifiers by
position, and the registry tasks never touch the credential file. -/
theorem gatherCreate_testHub (isBad : String → Bool) (hostname : String) :
    ∀ (ids : List String) (s : HubState), ids.Nodup →
      (∀ id ∈ ids, lookupDev s.devices id = none) →
      ∃ s1 : HubState,
        gatherCreate (testHub isBad) hostname s ids =
          (.ok (expectedResults hostname isBad s.fresh ids), s1) ∧
        s1.file = s.file := by
  intro ids
  induction ids with
  | nil => exact fun s _ _ => ⟨s, rfl, rfl⟩
  | cons device_id rest ih =>
    intro s hnd hfresh
    obtain ⟨hmem, hndr⟩ := List.nodup_cons.1 hnd
    have hid : lookupDev s.devices device_id = none := hfresh device_id (by simp)
    cases hb : isBad device_id with
    | false =>
      have hdev := create_device_fresh isBad hostname hid hb
      set s' : HubState :=
        ⟨(device_id, freshKey s.fresh) :: s.devices, s.fresh + 1, s.file⟩ with hs'
      have hrestfresh : ∀ id ∈ rest, lookupDev s'.devices id = none := by
        intro id hidm
        have hne : device_id ≠ id := fun he => hmem (he ▸ hidm)
        rw [hs']
        rw [show (⟨(device_id, freshKey s.fresh) :: s.devices, s.fresh + 1, s.file⟩ :
          HubState).devices = (device_id, freshKey s.fresh) :: s.devices from rfl]
        rw [lookupDev_cons_ne hne]
        exact hfresh id (by simp [hidm])
      obtain ⟨s1, hrec, hfile⟩ := ih s' hndr hrestfresh
      refine ⟨s1, ?_, hfile⟩
      have hrec' : gatherCreate (testHub isBad) hostname s' rest =
          (.ok (expectedResults hostname isBad (s.fresh + 1) rest), s1) := hrec
      simp [gatherCreate, hdev, expectedResults, hb, hrec']
    | true =>
      have hdev := create_device_bad isBad hostname hid hb
      obtain ⟨s1, hrec, hfile⟩ := ih s hndr (fun id hidm => hfresh id (by simp [hidm]))
      refine ⟨s1, ?_, hfile⟩
      simp [gatherCreate, hdev, expectedResults, hb, hrec]

/-! ### Store assembly -/

theorem expectedResults_length (hostname : String) (isBad : String → Bool) :
    ∀ (ids : List String) (n : Nat),
      (expectedResults hostname isBad n ids).length = ids.length := by
  intro ids
  induction ids with
  | nil => intro n; rfl
  | cons device_id rest ih =>
    intro n
    cases hb : isBad device_id <;> simp [expectedResults, hb, ih]

theorem dictInsert_fresh {d : List (String × DeviceCredential)} {k : String}
    (v : DeviceCredential) (h : ∀ p ∈ d, p.1 ≠ k) : dictInsert d k v = d ++ [(k, v)] := by
  rw [dictInsert, if_neg]
  simp only [List.any_eq_true, decide_eq_true_eq, not_exists, not_and]
  intro p hp
  exact fun he => h p hp he

theorem assembleGo_eq :
    ∀ (pairs : List (String × Option DeviceCredential))
      (d : List (String × DeviceCredential)),
      (pairs.map Prod.fst).Nodup →
      (∀ k ∈ pairs.map Prod.fst, ∀ p ∈ d, p.1 ≠ k) →
      assembleGo d pairs =
        d ++ pairs.filterMap (fun q => q.2.map (fun c => (q.1, c))) := by
  intro pairs
  induction pairs with
  | nil => intro d _ _; simp [assembleGo]
  | cons q rest ih =>
    intro d hnd hdisj
    obtain ⟨device_id, res⟩ := q
    have hnd' : (device_id :: rest.map Prod.fst).Nodup := by simpa using hnd
    obtain ⟨hmem, hndr⟩ := List.nodup_cons.1 hnd'
    cases res with
    | none =>
      rw [assembleGo]
      rw [ih d hndr (fun k hk p hp => hdisj k (by simp [hk]) p hp)]
      simp
    | some c =>
      rw [assembleGo]
      have hins : dictInsert d device_id c = d ++ [(device_id, c)] :=
        dictInsert_fresh c (fun p hp => hdisj device_id (by simp) p hp)
      rw [hins, ih (d ++ [(device_id, c)]) hndr ?_]
      · simp
      · intro k hk p hp
        rcases List.mem_append.1 hp with h | h
        · exact hdisj k (by simp [hk]) p h
        · have hp' : p = (device_id, c) := by simpa using h
          subst hp'
          intro he
          apply hmem
          have he' : device_id = k := he
          rw [he']
          exact hk

theorem zip_expectedResults_filterMap (hostname : String) (isBad : String → Bool) :
    ∀ (ids : List String) (n : Nat),
      (ids.zip (expectedResults hostname isBad n ids)).filterMap
          (fun q => q.2.map (fun c => (q.1, c))) =
        expectedStore hostname isBad n ids := by
  intro ids
  induction ids with
  | nil => intro n; rfl
  | cons device_id rest ih =>
    intro n
    cases hb : isBad device_id <;>
      simp [expectedResults, expectedStore, hb, List.zip_cons_cons, ih]

theorem assembleStore_expected (hostname : String) (isBad : String → Bool)
    (ids : List String) (n : Nat) (hnd : ids.Nodup) :
    assembleStore ids (expectedResults hostname isBad n ids) =
      expectedStore hostname isBad n ids := by
  rw [assembleStore, assembleGo_eq _ [] ?_ (by simp), zip_expectedResults_filterMap]
  · simp
  · rw [List.map_fst_zip]
    · exact hnd
    · rw [expectedResults_length]

theorem expectedStore_map_fst (hostname : String) (isBad : String → Bool) :
    ∀ (ids : List String) (n : Nat),
      (expectedStore hostname isBad n ids).map Prod.fst =
        ids.filter (fun id => !isBad id) := by
  intro ids
  induction ids with
  | nil => intro n; rfl
  | cons device_id rest ih =>
    intro n
    cases hb : isBad device_id <;> simp [expectedStore, hb, List.filter_cons, ih]

theorem expectedStore_length (hostname : String) (isBad : String → Bool)
    (ids : List String) (n : Nat) :
    (expectedStore hostname isBad n ids).length =
      (ids.filter (fun id => !isBad id)).length := by
  have := congrArg List.length (expectedStore_map_fst hostname isBad ids n)
  simpa using this

theorem expectedStore_entries (hostname : String) (isBad : String → Bool) :
    ∀ (ids : List String) (n : Nat), ∀ p ∈ expectedStore hostname isBad n ids,
      p.2.device_id = p.1 ∧ p.2.hostname = hostname := by
  intro ids
  induction ids with
  | nil => intro n p hp; simp [expectedStore] at hp
  | cons device_id rest ih =>
    intro n p hp
    cases hb : isBad device_id <;> rw [expectedStore, hb] at hp
    · rcases (by simpa using hp : p = (device_id, ⟨hostname, device_id, freshKey n⟩) ∨
          p ∈ expectedStore hostname isBad (n + 1) rest) with h | h
      · subst h; exact ⟨rfl, rfl⟩
      · exact ih (n + 1) p h
    · exact ih n p hp

theorem length_filter_not (p : String → Bool) :
    ∀ l : List String, (l.filter p).length + (l.filter (fun id => !p id)).length = l.length := by
  intro l
  induction l with
  | nil => rfl
  | cons a l ih => cases hp : p a <;> simp [List.filter_cons, hp] <;> omega

/-- `create_device_credentials_file` over the concrete world: the file
is replaced wholesale with the serialization of the given store. -/
theorem cdcf_testHub (isBad : String → Bool) (s : HubState)
    (credentials : List (String × DeviceCredential)) :
    create_device_credentials_file (testHub isBad) s credentials =
      (.ok (), ⟨s.devices, s.fresh, some (serializeStore credentials)⟩) := by
  simp [create_device_credentials_file, testHub]

/-- Full characterization of `create_devices_from_list` over the
concrete world on fresh, pairwise-distinct identifiers. -/
theorem cdfl_testHub (isBad : String → Bool) (hostname : String) (s : HubState)
    (ids : List String) (hnd : ids.Nodup)
    (hfresh : ∀ id ∈ ids, lookupDev s.devices id = none) :
    ∃ s' : HubState,
      create_devices_from_list (testHub isBad) hostname s ids =
        (.ok (expectedStore hostname isBad s.fresh ids), s') ∧
      s'.file = some (serializeStore (expectedStore hostname isBad s.fresh ids)) := by
  obtain ⟨s1, hg, _⟩ := gatherCreate_testHub isBad hostname ids s hnd hfresh
  refine ⟨⟨s1.devices, s1.fresh,
    some (serializeStore (expectedStore hostname isBad s.fresh ids))⟩, ?_, rfl⟩
  simp [create_devices_from_list, hg, assembleStore_expected hostname isBad ids s.fresh hnd,
    cdcf_testHub]

/-- Whatever happened before, `create_devices_from_list` over the
concrete world ends by persisting exactly the store it returns. -/
theorem cdfl_persists (isBad : String → Bool) (hostname : String) (s : HubState)
    (ids : List String) :
    ∃ store s', create_devices_from_list (testHub isBad) hostname s ids = (.ok store, s') ∧
      s'.file = some (serializeStore store) := by
  obtain ⟨results, s1, h1, _⟩ := gatherCreate_ok (testHub isBad) hostname ids s
  refine ⟨assembleStore ids results,
    ⟨s1.devices, s1.fresh, some (serializeStore (assembleStore ids results))⟩, ?_, rfl⟩
  simp [create_devices_from_list, h1, cdcf_testHub]

/-! ### Claim theorems -/

/-- C1: over a registry in which creation fails exactly for the
identifiers selected by `isBad`, `create_devices_from_list` on fresh,
pairwise-distinct identifiers launches one `create_device` task per
identifier, matches results back by position, keeps only the non-empty
results keyed by identifier (`expectedStore`), persists the serialized
store to the credential file before returning (even when zero devices
succeeded), does not raise, and with exactly one failing identifier in a
batch of `N` returns and persists a store of `N - 1` entries. -/
theorem claim_create_devices_from_list_partial_failure
    (hostname : String) (isBad : String → Bool) (s : HubState) (ids : List String)
    (hnd : ids.Nodup) (hfresh : ∀ id ∈ ids, lookupDev s.devices id = none) :
    ∃ s' : HubState,
      create_devices_from_list (testHub isBad) hostname s ids =
        (.ok (expectedStore hostname isBad s.fresh ids), s') ∧
      s'.file = some (serializeStore (expectedStore hostname isBad s.fresh ids)) ∧
      (expectedStore hostname isBad s.fresh ids).map Prod.fst =
        ids.filter (fun id => !isBad id) ∧
      (∀ p ∈ expectedStore hostname isBad s.fresh ids,
        p.2.device_id = p.1 ∧ p.2.hostname = hostname) ∧
      ((ids.filter isBad).length = 1 →
        (expectedStore hostname isBad s.fresh ids).length = ids.length - 1) := by
  obtain ⟨s', h1, h2⟩ := cdfl_testHub isBad hostname s ids hnd hfresh
  refine ⟨s', h1, h2, expectedStore_map_fst hostname isBad ids s.fresh,
    expectedStore_entries hostname isBad ids s.fresh, ?_⟩
  intro hone
  have htot := length_filter_not isBad ids
  rw [expectedStore_length]
  omega

theorem claim_create_devices_from_list_partial_failure_witness :
    ∃ s' : HubState,
      create_devices_from_list (testHub (fun id => id == "b")) "h"
          ⟨[], 0, none⟩ ["a", "b", "c"] =
        (.ok (expectedStore "h" (fun id => id == "b") 0 ["a", "b", "c"]), s') ∧
      s'.file = some (serializeStore (expectedStore "h" (fun id => id == "b") 0
        ["a", "b", "c"])) ∧
      (expectedStore "h" (fun id => id == "b") 0 ["a", "b", "c"]).map Prod.fst =
        ["a", "b", "c"].filter (fun id => !(id == "b")) ∧
      (∀ p ∈ expectedStore "h" (fun id => id == "b") 0 ["a", "b", "c"],
        p.2.device_id = p.1 ∧ p.2.hostname = "h") ∧
      ((["a", "b", "c"].filter (fun id => id == "b")).length = 1 →
        (expectedStore "h" (fun id => id == "b") 0 ["a", "b", "c"]).length =
          (["a", "b", "c"] : List String).length - 1) :=
  claim_create_devices_from_list_partial_failure "h" (fun id => id == "b")
    ⟨[], 0, none⟩ ["a", "b", "c"] (by decide) (by decide)

/-- C2: `create_device` is idempotent over the persistent registry: a
first call on a fresh identifier registers it once and returns its
credential; a second call with the same identifier finds the device,
creates no duplicate (registry state unchanged), returns the same
`device_id` and the same credential; and in general whenever the device
already exists the credential's key is freshly re-fetched from the
current registry state, not cached. -/
theorem claim_create_device_idempotent (hostname device_id : String) (s : HubState)
    (hnone : lookupDev s.devices device_id = none) :
    ∃ c1 s1, create_device honestHub hostname s device_id = (.ok (some c1), s1) ∧
      create_device honestHub hostname s1 device_id = (.ok (some c1), s1) ∧
      c1.device_id = device_id ∧
      lookupDev s1.devices device_id = some c1.shared_access_key ∧
      (∀ (s2 : HubState) (k : String), lookupDev s2.devices device_id = some k →
        create_device honestHub hostname s2 device_id =
          (.ok (some ⟨hostname, device_id, k⟩), s2)) := by
  refine ⟨⟨hostname, device_id, freshKey s.fresh⟩,
    ⟨(device_id, freshKey s.fresh) :: s.devices, s.fresh + 1, s.file⟩,
    create_device_fresh (fun _ => false) hostname hnone rfl, ?_, rfl,
    lookupDev_cons_self device_id (freshKey s.fresh) s.devices,
    fun s2 k hk => create_device_exists (fun _ => false) hostname hk⟩
  exact create_device_exists (fun _ => false) hostname
    (lookupDev_cons_self device_id (freshKey s.fresh) s.devices)

theorem claim_create_device_idempotent_witness :
    ∃ c1 s1, create_device honestHub "h" ⟨[], 0, none⟩ "aa" = (.ok (some c1), s1) ∧
      create_device honestHub "h" s1 "aa" = (.ok (some c1), s1) ∧
      c1.device_id = "aa" ∧
      lookupDev s1.devices "aa" = some c1.shared_access_key ∧
      (∀ (s2 : HubState) (k : String), lookupDev s2.devices "aa" = some k →
        create_device honestHub "h" s2 "aa" = (.ok (some ⟨"h", "aa", k⟩), s2)) :=
  claim_create_device_idempotent "h" "aa" ⟨[], 0, none⟩ rfl

/-- C3: for every registry behaviour (including one that throws at the
lookup, the creation, or the key-retrieval step), `create_device`
returns normally — `.ok`, never `.error` — and its result is either the
empty dictionary for that identifier or a credential for exactly that
identifier; moreover an exception in the creation step or in the
key-retrieval step yields exactly the empty dictionary.  A failure
never aborts anything beyond its own task. -/
theorem claim_create_device_isolates_failures {σ : Type} (H : Hub σ) (hostname : String)
    (s : σ) (device_id : String) :
    (∃ r s', create_device H hostname s device_id = (.ok r, s') ∧
      (r = none ∨ ∃ key, r = some ⟨hostname, device_id, key⟩)) ∧
    (∀ e s1 e2 s2, H.get_device s device_id = (.error e, s1) →
      H.create_device_with_sas s1 device_id = (.error e2, s2) →
      create_device H hostname s device_id = (.ok none, s2)) ∧
    (∀ (s0 : σ) e s1, H.get_device s0 device_id = (.error e, s1) →
      fetchCredential H hostname s0 device_id = (.ok none, s1)) := by
  refine ⟨create_device_ok H hostname s device_id, ?_, ?_⟩
  · intro e s1 e2 s2 hg hc
    simp [create_device, hg, hc]
  · intro s0 e s1 hg
    simp [fetchCredential, hg]

theorem claim_create_device_isolates_failures_witness :
    create_device failHub "h" () "aa" = (.ok none, ()) :=
  (claim_create_device_isolates_failures failHub "h" () "aa").2.1
    "network error" () "network error" () rfl rfl

/-- C4: whenever the generation loop returns, it returns exactly
`num_of_ids` pairwise-distinct identifiers, each in the fixed
`00-16-3e`-prefixed six-octet lowercase-hex format with the first random
octet masked to 7 bits; and `num_of_ids = 0` needs zero loop iterations
and cannot fail. -/
theorem claim_generate_mac_addresses_spec :
    (∀ (num_of_ids : Nat) (r : Nat → Nat) (fuel : Nat) (l : List String),
      generate_mac_addresses num_of_ids r fuel = some l →
      l.length = num_of_ids ∧ l.Nodup ∧ ∀ s ∈ l, MacFormatted s) ∧
    (∀ r : Nat → Nat, generate_mac_addresses 0 r 0 = some []) := by
  constructor
  · intro num_of_ids r fuel l h
    exact gmaAux_spec num_of_ids r fuel [] 0 l (by simp) (by simp) (by simp) h
  · exact generate_mac_addresses_zero

theorem claim_generate_mac_addresses_spec_witness :
    ∃ l, generate_mac_addresses 2 (fun n => n) 2 = some l ∧
      l.length = 2 ∧ l.Nodup ∧ ∀ s ∈ l, MacFormatted s := by
  have h : generate_mac_addresses 2 (fun n => n) 2 =
      some ["00-16-3e-00-01-02", "00-16-3e-03-04-05"] := by decide
  exact ⟨_, h, claim_generate_mac_addresses_spec.1 2 (fun n => n) 2 _ h⟩

/-- C5: the credential file is overwritten wholesale: after two
sequential `create_devices_from_list` runs (arbitrary identifier lists
and fault patterns), the on-disk content is exactly the serialization of
the second run's store — no merge with the first run's store or any
prior content of the file inside the start state. -/
theorem claim_credentials_file_overwritten (isBad1 isBad2 : String → Bool)
    (hostname : String) (s : HubState) (ids1 ids2 : List String) :
    ∃ store1 s1 store2 s2,
      create_devices_from_list (testHub isBad1) hostname s ids1 = (.ok store1, s1) ∧
      create_devices_from_list (testHub isBad2) hostname s1 ids2 = (.ok store2, s2) ∧
      s2.file = some (serializeStore store2) := by
  obtain ⟨store1, s1, h1, _⟩ := cdfl_persists isBad1 hostname s ids1
  obtain ⟨store2, s2, h2, hfile⟩ := cdfl_persists isBad2 hostname s1 ids2
  exact ⟨store1, s1, store2, s2, h1, h2, hfile⟩

/-- C6: `connect_device` always returns normally (exceptions anywhere in
its body are caught and logged, never propagated), and its interaction
trace is one of exactly three shapes: client construction from the
credential-built connection string failed; construction succeeded but
opening failed; or the connection was opened, success was logged, and
`disconnect` was invoked. In particular every successful open is
followed by a close. -/
theorem claim_connect_device_spec {σ : Type} (D : DevClient σ) (s : σ)
    (device_credential : DeviceCredential) :
    ∃ s' tr, connect_device D s device_credential = (.ok (), s', tr) ∧
      (tr = [] ∨ tr = [.created (connString device_credential)] ∨
       tr = [.created (connString device_credential), .connected,
             .loggedSuccess device_credential.device_id, .closed]) :=
  connect_device_cases D s device_credential

/-- C7: all four error kinds — registry-session failure in
`connect_hub`, per-device failure in `create_device`, connectivity-check
failure in `connect_device`, persistence failure in
`create_device_credentials_file` — are caught at the operation nearest
their cause: for every oracle behaviour each operation returns `.ok`,
so none of them propagates an exception to the top-level driver. -/
theorem claim_no_error_propagates {σ τ ρ : Type} (F : HubFactory τ) (H : Hub σ)
    (D : DevClient ρ) (st : τ) (s : σ) (sd : ρ)
    (hostname shared_access_key_name shared_access_key device_id : String)
    (credentials : List (String × DeviceCredential))
    (device_credential : DeviceCredential) :
    (∃ s' b, connect_hub F st hostname shared_access_key_name shared_access_key =
      (.ok (), s', b)) ∧
    (∃ r s', create_device H hostname s device_id = (.ok r, s')) ∧
    (∃ s' tr, connect_device D sd device_credential = (.ok (), s', tr)) ∧
    (∃ s', create_device_credentials_file H s credentials = (.ok (), s')) := by
  refine ⟨connect_hub_ok F st hostname shared_access_key_name shared_access_key, ?_, ?_,
    create_device_credentials_file_ok H s credentials⟩
  · obtain ⟨r, s', h, _⟩ := create_device_ok H hostname s device_id
    exact ⟨r, s', h⟩
  · obtain ⟨s', tr, h, _⟩ := connect_device_cases D sd device_credential
    exact ⟨s', tr, h⟩

/-- C8: the generator is deterministic in the random source: two runs
driven by pointwise-equal random streams produce identical results. -/
theorem claim_generate_deterministic (num_of_ids fuel : Nat) (r1 r2 : Nat → Nat)
    (h : ∀ n, r1 n = r2 n) :
    generate_mac_addresses num_of_ids r1 fuel = generate_mac_addresses num_of_ids r2 fuel := by
  have he : r1 = r2 := funext h
  rw [he]

theorem claim_generate_deterministic_witness :
    generate_mac_addresses 3 (fun n => 0 + n) 3 = generate_mac_addresses 3 (fun n => n) 3 :=
  claim_generate_deterministic 3 3 (fun n => 0 + n) (fun n => n) (fun n => Nat.zero_add n)

/-- C9: barrier/join semantics of the two fan-outs: the gather of
`create_devices_from_list` completes with exactly one terminal result
per launched per-identifier task, and `connect_all_devices` completes
with exactly one terminal trace per stored credential; both return only
the fully-joined results — no cancellation, timeout, or dangling
task. -/
theorem claim_barrier_join {σ τ : Type} (H : Hub σ) (hostname : String) (s : σ)
    (device_ids : List String) (D : DevClient τ) (t : τ)
    (all_credentials : List (String × DeviceCredential)) :
    (∃ results s', gatherCreate H hostname s device_ids = (.ok results, s') ∧
      results.length = device_ids.length) ∧
    (∃ s' traces, connect_all_devices D t all_credentials = (.ok (), s', traces) ∧
      traces.length = all_credentials.length) :=
  ⟨gatherCreate_ok H hostname device_ids s, connect_all_devices_ok D all_credentials t⟩

/-- C10: the identifier space reachable by `generate_mac` has exactly
`2^23` elements; every generated identifier stays inside it; hence for
any requested count above `2^23` the uniqueness loop can never
terminate, however much fuel and whatever random stream it is given,
while for every count up to `2^23` there is a random stream under which
it terminates with exactly that many identifiers. -/
theorem claim_identifier_space :
    macSpace.card = 2 ^ 23 ∧
    (∀ (r : Nat → Nat) (n : Nat), generate_mac r n ∈ macSpace) ∧
    (∀ num_of_ids : Nat, 2 ^ 23 < num_of_ids →
      ∀ (r : Nat → Nat) (fuel : Nat), generate_mac_addresses num_of_ids r fuel = none) ∧
    (∀ num_of_ids : Nat, num_of_ids ≤ 2 ^ 23 →
      ∃ (r : Nat → Nat) (fuel : Nat) (l : List String),
        generate_mac_addresses num_of_ids r fuel = some l ∧ l.length = num_of_ids) := by
  refine ⟨macSpace_card, generate_mac_mem_macSpace, ?_, ?_⟩
  · intro num_of_ids hbig r fuel
    exact gmaAux_none_of_large hbig fuel r 0 [] (by simp) (by simp)
  · intro num_of_ids hsmall
    exact ⟨enumStream, num_of_ids, macList num_of_ids,
      generate_mac_addresses_enum hsmall, macList_length num_of_ids⟩

theorem claim_identifier_space_witness :
    generate_mac_addresses (2 ^ 23 + 1) (fun n => n) 5 = none ∧
    (∃ (r : Nat → Nat) (fuel : Nat) (l : List String),
      generate_mac_addresses 1 r fuel = some l ∧ l.length = 1) :=
  ⟨claim_identifier_space.2.2.1 (2 ^ 23 + 1) (by norm_num) (fun n => n) 5,
   claim_identifier_space.2.2.2 1 (by norm_num)⟩

end BulkDeviceCreation
